import Mathlib

/-!
Verification of the math_solver repository (Version_3 core) against its
natural-language specification.  The Python source is shallowly embedded:
pure functions become Lean functions, the stateful chatbot becomes explicit
state passing on a `Chatbot` record, regular-expression matching is embedded
by a small backtracking engine with Python `re` semantics (leftmost match,
greedy quantifiers, ordered alternation), and fallible code returns
`Option`/`Except`.  Strings are modelled as Lean `String`s over their
character lists; the inputs exercised by the specification are ASCII, and
the Python `str.lower`/`str.upper`/`str.strip` operations are modelled by
their ASCII behaviour.
-/

namespace MathSolver

/-! ## Python string helpers (models of `str` methods used by the source) -/

/-- Characters treated as whitespace by Python's `str.strip` and the regex
class `\s` (ASCII fragment). -/
def pyWsChars : List Char := [' ', '\t', '\n', '\r', '\x0B', '\x0C']

def pyWs (c : Char) : Bool := pyWsChars.contains c

/-- Model of Python `str.lower` (ASCII). -/
def pyLower (l : List Char) : List Char := l.map Char.toLower

/-- Model of Python `str.upper` (ASCII). -/
def pyUpper (l : List Char) : List Char := l.map Char.toUpper

/-- Model of Python `str.strip()`. -/
def pyStripL (l : List Char) : List Char :=
  ((l.dropWhile pyWs).reverse.dropWhile pyWs).reverse

def pyStripS (s : String) : String := String.mk (pyStripL s.data)

/-- Model of Python's substring test `pat in s` on character lists. -/
def containsSub (pat l : List Char) : Bool :=
  (List.range (l.length + 1)).any fun i => pat.isPrefixOf (l.drop i)

def containsSubS (pat s : String) : Bool := containsSub pat.data s.data

/-- Model of Python `str.startswith`. -/
def pyStartsWith (pre s : String) : Bool := pre.data.isPrefixOf s.data

/-- Index of the first occurrence of `sep` in `l`, if any. -/
def findSubIdx (sep l : List Char) : Option Nat :=
  (List.range (l.length + 1)).find? fun i => sep.isPrefixOf (l.drop i)

/-- Model of Python `s.split(sep, 1)` returning the two pieces.  Call sites
in the embedded code are guarded so that `sep` always occurs; when it does
not, the second component is `""` (Python would raise `IndexError` on
`[1]`, a path the guarded code never takes). -/
def pySplitFirst (sep s : String) : String × String :=
  match findSubIdx sep.data s.data with
  | some i => (String.mk (s.data.take i), String.mk (s.data.drop (i + sep.data.length)))
  | none => (s, "")

/-! ## Data model (`models.py`) -/

/-- `ChatMessage` dataclass from `models.py`.  The optional tool-call fields
are carried for shape faithfulness; no embedded call site sets them. -/
structure ChatMessage where
  role : String
  content : String
  tool_calls : Option (List String) := none
  tool_call_id : Option String := none
deriving DecidableEq, Repr

/-- A stored correction entry (dict with keys pattern/correction/explanation
in `chatbot.py`; `None` pattern and explanation are stored as `""`). -/
structure Correction where
  pattern : String
  correction : String
  explanation : String
deriving DecidableEq, Repr

/-- The chatbot state touched by the embedded operations: the visible
conversation history and the correction store. -/
structure Chatbot where
  conversation : List ChatMessage
  corrections : List Correction
deriving DecidableEq, Repr

/-- `MathTutorChatbot.add_message` (role/content call sites only). -/
def add_message (bot : Chatbot) (role content : String) : Chatbot :=
  { bot with conversation := bot.conversation ++ [{ role := role, content := content }] }

/-- The entry dict built by `add_correction`: a falsy (`None` or empty)
pattern or explanation is stored as `""`. -/
def mkCorrectionEntry (pattern : Option String) (correction : String)
    (explanation : Option String) : Correction :=
  { pattern := (match pattern with | some p => if p = "" then "" else p | none => "")
    correction := correction
    explanation := (match explanation with | some e => if e = "" then "" else e | none => "") }

/-- `MathTutorChatbot.add_correction`: the entry is prepended so recent
corrections have priority.  Persistence (`_save_corrections`) is an I/O
effect outside the state model. -/
def add_correction (pattern : Option String) (correction : String)
    (explanation : Option String) (bot : Chatbot) : Chatbot :=
  { bot with corrections := mkCorrectionEntry pattern correction explanation :: bot.corrections }

/-- The per-entry test of `find_applicable_correction`: a non-empty pattern
occurring as a case-insensitive substring of `text` (an empty pattern is
`continue`d over, i.e. never matches). -/
def matchesCorrection (text : String) (c : Correction) : Bool :=
  c.pattern ≠ "" && containsSub (pyLower c.pattern.data) (pyLower text.data)

/-- `MathTutorChatbot.find_applicable_correction`: first stored correction
(head-to-tail) whose non-empty pattern occurs case-insensitively in `text`;
empty patterns are skipped. -/
def find_applicable_correction (bot : Chatbot) (text : String) : Option Correction :=
  bot.corrections.find? (matchesCorrection text)

/-! ## Streaming inference client (`ollama_client.py`) -/

/-- What `chat_stream` inspects on one parsed line of the streaming body:
whether `json.loads` failed, whether the parsed object has a
`message.content` field (and its value), and its `done` flag
(`data.get("done", False)`).  `blank` stands for a line that is empty after
`strip()`. -/
inductive LineParse where
  | blank
  | malformed
  | data (content : Option String) (done : Bool)
deriving DecidableEq, Repr

/-- The per-line loop of `chat_stream`: a line with a `message.content`
field yields the content when non-empty (and never breaks, even when `done`
is also set, because of the `elif`); a line without that field but with
`done` true breaks; malformed and blank lines are skipped. -/
def processLines : List LineParse → List String
  | [] => []
  | .blank :: rest => processLines rest
  | .malformed :: rest => processLines rest
  | .data (some c) _ :: rest =>
      if c ≠ "" then c :: processLines rest else processLines rest
  | .data none done :: rest =>
      if done then [] else processLines rest

/-- The three `except` clauses of `chat_stream`: connection failure or
timeout (`httpx.ConnectError`/`httpx.TimeoutException`), non-2xx HTTP
status (`httpx.HTTPStatusError`), and any other exception. -/
inductive FailKind where
  | conn
  | httpStatus
  | other
deriving DecidableEq, Repr

/-- Outcome of one attempt of the retry loop: either the streaming body is
read successfully (its lines are processed), or the attempt raises after
having already yielded the fragments `pre`. -/
inductive AttemptResult where
  | ok (lines : List LineParse)
  | fail (pre : List String) (kind : FailKind) (err : String)

/-- Observable run of `chat_stream`: fragments yielded, backoff sleeps in
order, reconnect count, attempts made, and `none` for a normal return or
`some e` for the re-raised exception. -/
structure RunResult where
  fragments : List String
  sleeps : List ℚ
  reconnects : Nat
  attemptsMade : Nat
  raised : Option String

/-- The retry loop of `chat_stream`
(`for attempt in range(retries + 1)`), recursing on the number of
remaining retries (`remaining = retries - attempt`, so the Python
condition `attempt < retries` is `remaining > 0`): on a failure with
retries remaining the client reconnects (for connection failures) and
sleeps `retry_delay * 2 ** attempt` before retrying; on the last attempt
the last exception is re-raised. -/
def chat_stream_loop (attempts : Nat → AttemptResult) (retry_delay : ℚ) :
    Nat → Nat → RunResult
  | remaining, attempt =>
    match attempts attempt with
    | .ok lines =>
        { fragments := processLines lines, sleeps := [], reconnects := 0,
          attemptsMade := 1, raised := none }
    | .fail pre kind err =>
        match remaining with
        | remaining' + 1 =>
            let rest := chat_stream_loop attempts retry_delay remaining' (attempt + 1)
            { fragments := pre ++ rest.fragments
              sleeps := retry_delay * 2 ^ attempt :: rest.sleeps
              reconnects := (match kind with | .conn => 1 | _ => 0) + rest.reconnects
              attemptsMade := 1 + rest.attemptsMade
              raised := rest.raised }
        | 0 =>
            { fragments := pre, sleeps := [], reconnects := 0,
              attemptsMade := 1, raised := some err }

/-- `OllamaClient.chat_stream` with its default `retries=3`,
`retry_delay=1.0` made explicit parameters. -/
def chat_stream (attempts : Nat → AttemptResult) (retries : Nat)
    (retry_delay : ℚ) : RunResult :=
  chat_stream_loop attempts retry_delay retries 0

/-- Connection-owning state of `OllamaClient`: configuration plus a
generation counter standing for the identity of the underlying `httpx`
client object. -/
structure OllamaClient where
  base_url : String
  timeout : ℚ
  clientGen : Nat
  is_closed : Bool
deriving DecidableEq, Repr

/-- Teardown actions observable from `close`/`reconnect`: a call to the
underlying `aclose`, and a logged teardown error when that call raises. -/
inductive CloseAct where
  | acloseCall
  | errorLogged
deriving DecidableEq, Repr

/-- `OllamaClient.close`: only acts when not already closed; marks the
client closed even when `aclose` raises (`acloseRaises` models whether the
underlying `aclose()` call fails). -/
def close (c : OllamaClient) (acloseRaises : Bool) : OllamaClient × List CloseAct :=
  if c.is_closed then (c, [])
  else
    ({ c with is_closed := true },
      .acloseCall :: (if acloseRaises then [.errorLogged] else []))

/-- `OllamaClient.reconnect`: closes the old client when open, then replaces
it with a fresh one, preserving `base_url` and `timeout`. -/
def reconnect (c : OllamaClient) (acloseRaises : Bool) : OllamaClient × List CloseAct :=
  let acts := if c.is_closed then []
    else .acloseCall :: (if acloseRaises then [.errorLogged] else [])
  ({ c with clientGen := c.clientGen + 1, is_closed := false }, acts)

/-! ## Regular-expression engine

A small backtracking engine with Python `re` semantics: ordered
alternation, greedy `*`/`?`, word boundaries, leftmost match.  `ends`
returns the candidate end positions of a match starting at `i`, in the
order Python's backtracking would try them, so the head of the list is the
end position of the Python match. -/

/-- Regex abstract syntax: character classes, sequencing, ordered
alternation, greedy star, greedy option, word boundary `\b`, and the empty
regex. -/
inductive RE where
  | eps
  | cls (p : Char → Bool)
  | seq (a b : RE)
  | alt (a b : RE)
  | star (r : RE)
  | opt (r : RE)
  | wordB

/-- `r+` as `r r*`. -/
def RE.plus (r : RE) : RE := .seq r (.star r)

/-- Sequence of a list of regexes (`eps`-terminated, which matches the
empty string and so leaves the concatenation's meaning unchanged). -/
def RE.seqList : List RE → RE
  | [] => .eps
  | r :: rest => .seq r (RE.seqList rest)

/-- Ordered alternation of a list of regexes. -/
def RE.altList : List RE → RE
  | [] => .cls fun _ => false
  | [r] => r
  | r :: rest => .alt r (RE.altList rest)

/-- Case-sensitive literal. -/
def RE.lit (w : List Char) : RE := RE.seqList (w.map fun c => RE.cls (· = c))

/-- Case-insensitive literal (ASCII), for patterns compiled with
`re.IGNORECASE`. -/
def RE.litCI (w : List Char) : RE :=
  RE.seqList (w.map fun c => RE.cls fun d => d.toLower = c.toLower)

/-- Word characters for `\b` (ASCII fragment of Python's `\w`). -/
def pyWordChar (c : Char) : Bool := c.isAlphanum || c = '_'

/-- Whether position `i` of `s` is a `\b` word boundary. -/
def wordBoundaryAt (s : List Char) (i : Nat) : Bool :=
  let before := match s.get? (i - 1) with
    | some c => i ≠ 0 && pyWordChar c
    | none => false
  let here := match s.get? i with
    | some c => pyWordChar c
    | none => false
  before ≠ here

/-- Candidate end positions (in backtracking priority order) of a match of
`r` in `s` starting at position `i`.  `fuel` bounds the recursion; every
starred subpattern of the embedded patterns consumes at least one
character per iteration, so `reFuel` below is always sufficient. -/
def ends (fuel : Nat) (r : RE) (s : List Char) (i : Nat) : List Nat :=
  match fuel with
  | 0 => []
  | fuel + 1 =>
    match r with
    | .eps => [i]
    | .wordB => if wordBoundaryAt s i then [i] else []
    | .cls p =>
        match s[i]? with
        | some c => if p c then [i + 1] else []
        | none => []
    | .seq a b => (ends fuel a s i).flatMap fun j => ends fuel b s j
    | .alt a b => ends fuel a s i ++ ends fuel b s i
    | .opt a => ends fuel a s i ++ [i]
    | .star a =>
        (((ends fuel a s i).filter fun j => i < j).flatMap fun j =>
          ends fuel (.star a) s j) ++ [i]

/-- Fuel sufficient for every pattern in this file on input `s`. -/
def reFuel (s : List Char) : Nat := 100 * (s.length + 2)

/-- Leftmost match of `r` in `s` with start position ≥ `start`:
the smallest start with a match, paired with the end position Python's
backtracking would choose (the head of `ends`).  `fuel` only bounds the
scan over start positions; `s.length + 1 - start` always suffices. -/
def firstMatchFromF (r : RE) (s : List Char) : Nat → Nat → Option (Nat × Nat)
  | 0, _ => none
  | fuel + 1, start =>
    if start > s.length then none
    else
      match (ends (reFuel s) r s start).head? with
      | some j => some (start, j)
      | none => firstMatchFromF r s fuel (start + 1)

def firstMatchFrom (r : RE) (s : List Char) (start : Nat) : Option (Nat × Nat) :=
  firstMatchFromF r s (s.length + 1 - start) start

/-- Spans of `re.findall`: repeated leftmost matching, continuing after
each match (advancing one position past an empty match). -/
def findallFrom (r : RE) (s : List Char) : Nat → Nat → List (Nat × Nat)
  | 0, _ => []
  | fuel + 1, pos =>
    match firstMatchFrom r s pos with
    | none => []
    | some (a, b) =>
        (a, b) :: findallFrom r s fuel (if a < b then b else b + 1)

/-- The characters of `s` from position `a` (inclusive) to `b` (exclusive). -/
def subStr (s : List Char) (a b : Nat) : String := String.mk ((s.drop a).take (b - a))

/-- `re.findall(pattern, text)` for patterns without capture groups:
the list of matched substrings. -/
def findallStrings (r : RE) (s : List Char) : List String :=
  (findallFrom r s (s.length + 2) 0).map fun ab => subStr s ab.1 ab.2

/-- Python `max(matches, key=len)`: the first element of maximal length. -/
def maxByLen (h : String) (t : List String) : String :=
  t.foldl (fun best m => if best.length < m.length then m else best) h

/-! ## The concrete patterns of `tool_detector.py` -/

/-- `\d` (ASCII decimal digits). -/
def pyDigit (c : Char) : Bool :=
  ['0', '1', '2', '3', '4', '5', '6', '7', '8', '9'].contains c

/-- `[a-zA-Z]`. -/
def asciiAlpha (c : Char) : Bool := ('a' ≤ c && c ≤ 'z') || ('A' ≤ c && c ≤ 'Z')

/-- `\s*` -/
def reWsStar : RE := .star (.cls pyWs)

/-- `\d+(?:\.\d+)?` — a number with optional decimal part. -/
def reNum : RE :=
  .seq (RE.plus (.cls pyDigit))
    (.opt (.seq (.cls (· = '.')) (RE.plus (.cls pyDigit))))

/-- `[+\-*/]` -/
def reOp4 : RE := .cls fun c => ['+', '-', '*', '/'].contains c

/-- `[+\-*/^]` (the operator class of `detect_math_expression`). -/
def reOp5 : RE := .cls fun c => ['+', '-', '*', '/', '^'].contains c

/-- Arithmetic pattern 1:
`\d+(?:\.\d+)?\s*[+\-*/]\s*\d+(?:\.\d+)?(?:\s*[+\-*/]\s*\d+(?:\.\d+)?)*`. -/
def reArith1 : RE :=
  RE.seqList [reNum, reWsStar, reOp4, reWsStar, reNum,
    .star (RE.seqList [reWsStar, reOp4, reWsStar, reNum])]

/-- Arithmetic pattern 2: `\d+(?:\.\d+)?\s*\*\*\s*\d+(?:\.\d+)?`. -/
def reArith2 : RE :=
  RE.seqList [reNum, reWsStar, RE.lit ['*', '*'], reWsStar, reNum]

/-- Arithmetic pattern 3:
`\(\s*\d+(?:\.\d+)?\s*[+\-*/]\s*\d+(?:\.\d+)?\s*\)`. -/
def reArith3 : RE :=
  RE.seqList [.cls (· = '('), reWsStar, reNum, reWsStar, reOp4, reWsStar,
    reNum, reWsStar, .cls (· = ')')]

/-- Math pattern 1:
`\b(?:solve|simplify|factor|diff|integrate|limit|series|matrix)\s*\([^)]+\)`
(compiled with `re.IGNORECASE`). -/
def reMath1 : RE :=
  RE.seqList [.wordB,
    RE.altList (["solve", "simplify", "factor", "diff", "integrate",
      "limit", "series", "matrix"].map fun w => RE.litCI w.data),
    reWsStar, .cls (· = '('), RE.plus (.cls (· ≠ ')')), .cls (· = ')')]

/-- Math pattern 2: `\b\d+(?:\.\d+)?\s*[+\-*/^]\s*\d+(?:\.\d+)?`. -/
def reMath2 : RE :=
  RE.seqList [.wordB, reNum, reWsStar, reOp5, reWsStar, reNum]

/-- `[^=\n]+` -/
def reNotEqNl : RE := RE.plus (.cls fun c => c ≠ '=' && c ≠ '\n')

/-- Math pattern 3: `\b[a-zA-Z]+\s*=\s*[^=\n]+`. -/
def reMath3 : RE :=
  RE.seqList [.wordB, RE.plus (.cls asciiAlpha), reWsStar, .cls (· = '='),
    reWsStar, reNotEqNl]

/-- Math pattern 4: `\b[a-zA-Z]+\([^)]*\)\s*=\s*[^=\n]+`. -/
def reMath4 : RE :=
  RE.seqList [.wordB, RE.plus (.cls asciiAlpha), .cls (· = '('),
    .star (.cls (· ≠ ')')), .cls (· = ')'), reWsStar, .cls (· = '='),
    reWsStar, reNotEqNl]

/-- Math pattern 5: `\$.*\$` (`.` excludes newline). -/
def reMath5 : RE :=
  RE.seqList [.cls (· = '$'), .star (.cls (· ≠ '\n')), .cls (· = '$')]

/-! ### Natural-language patterns of `detect_basic_arithmetic`

These three patterns have exactly three capture groups each, so they are
embedded through a shape `NLSpec` holding the pieces before, between and
after the groups; `nlSearch` mirrors `re.search` and returns the three
captured substrings of the leftmost match. -/

structure NLSpec where
  pre : RE
  g1 : RE
  mid1 : RE
  g2 : RE
  mid2 : RE
  g3 : RE
  post : RE

/-- Captured triples of matches of `sp` at position `i`, in backtracking
priority order. -/
def nlCandidates (sp : NLSpec) (s : List Char) (i : Nat) :
    List (String × String × String) :=
  let f := reFuel s
  (ends f sp.pre s i).flatMap fun j0 =>
  (ends f sp.g1 s j0).flatMap fun j1 =>
  (ends f sp.mid1 s j1).flatMap fun j2 =>
  (ends f sp.g2 s j2).flatMap fun j3 =>
  (ends f sp.mid2 s j3).flatMap fun j4 =>
  (ends f sp.g3 s j4).flatMap fun j5 =>
  (ends f sp.post s j5).map fun _ =>
    (subStr s j0 j1, subStr s j2 j3, subStr s j4 j5)

/-- `re.search` for a three-group pattern: captured groups of the leftmost
match.  As with `firstMatchFromF`, the fuel bounds the start-position scan. -/
def nlSearchF (sp : NLSpec) (s : List Char) : Nat → Nat → Option (String × String × String)
  | 0, _ => none
  | fuel + 1, start =>
    if start > s.length then none
    else
      match (nlCandidates sp s start).head? with
      | some g => some g
      | none => nlSearchF sp s fuel (start + 1)

def nlSearch (sp : NLSpec) (s : List Char) (start : Nat) :
    Option (String × String × String) :=
  nlSearchF sp s (s.length + 1 - start) start

/-- `\s+` -/
def reWsPlus : RE := RE.plus (.cls pyWs)

/-- `(plus|minus|times|multiplied\s+by|divided\s+by)` -/
def reOpWords : RE :=
  RE.altList [RE.lit "plus".data, RE.lit "minus".data, RE.lit "times".data,
    .seq (RE.lit "multiplied".data) (.seq reWsPlus (RE.lit "by".data)),
    .seq (RE.lit "divided".data) (.seq reWsPlus (RE.lit "by".data))]

/-- NL pattern 1:
`what\s+is\s+(\d+(?:\.\d+)?)\s*(plus|…|divided\s+by)\s+(\d+(?:\.\d+)?)`. -/
def nlSpec1 : NLSpec :=
  { pre := RE.seqList [RE.lit "what".data, reWsPlus, RE.lit "is".data, reWsPlus]
    g1 := reNum, mid1 := reWsStar, g2 := reOpWords, mid2 := reWsPlus
    g3 := reNum, post := .eps }

/-- NL pattern 2:
`(?:calculate|compute)\s+(\d+(?:\.\d+)?)\s*([+\-*/])\s*(\d+(?:\.\d+)?)`. -/
def nlSpec2 : NLSpec :=
  { pre := .seq (.alt (RE.lit "calculate".data) (RE.lit "compute".data)) reWsPlus
    g1 := reNum, mid1 := reWsStar, g2 := reOp4, mid2 := reWsStar
    g3 := reNum, post := .eps }

/-- NL pattern 3:
`(\d+(?:\.\d+)?)\s*(plus|…|divided\s+by)\s+(\d+(?:\.\d+)?)\s*(?:equals|is|=)`. -/
def nlSpec3 : NLSpec :=
  { pre := .eps
    g1 := reNum, mid1 := reWsStar, g2 := reOpWords, mid2 := reWsPlus
    g3 := reNum
    post := .seq reWsStar (RE.altList [RE.lit "equals".data, RE.lit "is".data,
      RE.lit "=".data]) }

/-- The `op_map` word-operator table. -/
def opMap (w : String) : Option String :=
  if w = "plus" then some "+"
  else if w = "minus" then some "-"
  else if w = "times" then some "*"
  else if w = "multiplied by" then some "*"
  else if w = "divided by" then some "/"
  else none

/-! ## `tool_detector.py` -/

/-- The loop over `arithmetic_patterns`: first pattern with matches wins,
and the longest match (first on ties, Python `max(_, key=len)`) is
returned. -/
def arithPatternLoop (s : List Char) : List RE → Option String
  | [] => none
  | r :: rest =>
    match findallStrings r s with
    | [] => arithPatternLoop s rest
    | m :: ms => some (maxByLen m ms)

/-- The loop over `nl_patterns`: `re.search` on the lowered, stripped text;
on a match, the three groups are combined through `op_map`; a matched
operator word not in `op_map` falls through to the next pattern (this is
how the `([+\-*/])` group of the `calculate`/`compute` pattern behaves,
since symbols are not `op_map` keys). -/
def nlPatternLoop (s : List Char) : List NLSpec → Option String
  | [] => none
  | sp :: rest =>
    match nlSearch sp s 0 with
    | some (n1, opw, n2) =>
        match opMap opw with
        | some sym => some (n1 ++ sym ++ n2)
        | none => nlPatternLoop s rest
    | none => nlPatternLoop s rest

/-- `detect_basic_arithmetic`: direct digit/operator patterns on the raw
text first (longest match wins), then the natural-language patterns on
`text.lower().strip()`. -/
def detect_basic_arithmetic (text : String) : Option String :=
  let s := text.data
  let textLower := pyStripL (pyLower s)
  match arithPatternLoop s [reArith1, reArith2, reArith3] with
  | some m => some m
  | none => nlPatternLoop textLower [nlSpec1, nlSpec2, nlSpec3]

/-- The inner loop of `detect_math_expression` over the matches of one
pattern: the first match longer than 3 characters after `strip()` is
returned, with `$` delimiters removed. -/
def firstSubstantial : List String → Option String
  | [] => none
  | m :: rest =>
    if 3 < (pyStripL m.data).length then
      if pyStartsWith "$" m && m.data.getLast? = some '$' then
        some (String.mk (m.data.drop 1).dropLast)
      else some m
    else firstSubstantial rest

/-- The loop over the five patterns of `detect_math_expression`. -/
def mathPatternLoop (s : List Char) : List RE → Option String
  | [] => none
  | r :: rest =>
    match firstSubstantial (findallStrings r s) with
    | some m => some m
    | none => mathPatternLoop s rest

/-- `detect_math_expression`: first substantial match of the five general
math patterns, in order. -/
def detect_math_expression (text : String) : Option String :=
  mathPatternLoop text.data [reMath1, reMath2, reMath3, reMath4, reMath5]

/-- The `symbolic_indicators` list of `should_use_sympy`. -/
def symbolicIndicators : List String :=
  ["solve", "simplify", "factor", "diff", "integrate", "limit", "series",
   "=", "x", "y", "z", "sin", "cos", "tan", "exp", "log", "sqrt",
   "matrix", "vector"]

/-- `should_use_sympy`: a detected math expression whose lowered form
contains any symbolic indicator. -/
def should_use_sympy (text : String) : Bool :=
  match detect_math_expression text with
  | none => false
  | some expr =>
      symbolicIndicators.any fun ind => containsSub ind.data (pyLower expr.data)

/-- The `complex_indicators` list of `is_basic_arithmetic` (note: unlike
`symbolic_indicators` it also lists the variable letters a, b, c). -/
def complexIndicators : List String :=
  ["solve", "simplify", "factor", "diff", "integrate", "limit", "series",
   "=", "x", "y", "z", "a", "b", "c", "sin", "cos", "tan", "exp", "log",
   "sqrt", "matrix", "vector"]

/-- `is_basic_arithmetic`: a basic arithmetic expression is extractable and
its own lowered text contains none of the complex indicators.  (The
indicators are checked on the extracted expression, not on the whole
input.) -/
def is_basic_arithmetic (text : String) : Bool :=
  match detect_basic_arithmetic text with
  | none => false
  | some expr =>
      if expr = "" then false
      else ¬ complexIndicators.any fun ind => containsSub ind.data (pyLower expr.data)

/-- `MathTutorChatbot._detect_tool_intent`: priority order
basic_arithmetic > sympy > numeric; `None` when no tool applies.  An empty
detected math expression is falsy in Python, so both sympy conditions fail
on it. -/
def detect_tool_intent (userInput : String) : Option String :=
  if is_basic_arithmetic userInput then some "basic_arithmetic"
  else
    match detect_math_expression userInput with
    | some mathExpr =>
        if mathExpr ≠ "" then
          if should_use_sympy userInput then some "sympy" else some "numeric"
        else none
    | none => none

/-! ## Arithmetic evaluation (`math_evaluators.py`)

`safe_arithmetic_eval` first restricts the input to the characters
`0123456789+-*/().**`, then evaluates it with Python `eval` under an empty
namespace, so only literal arithmetic can run.  `eval` itself is a Python
builtin, not repository code; it is modelled here by an exact
recursive-descent evaluator over Python's expression grammar restricted to
that character set, with Python's `int`/`float` distinction and exact
rationals in place of IEEE floats.  Two documented model boundaries, on
paths no claim exercises: a power with a non-integral exponent (Python
would produce an irrational float) is reported as a distinct error, and a
non-integral float renders as `num/den` rather than Python's decimal
notation. -/

/-- Python numbers produced by the arithmetic fragment: `int`, or `float`
modelled exactly as a rational. -/
inductive PyNum where
  | int (z : ℤ)
  | float (q : ℚ)
deriving DecidableEq, Repr

/-- Failures of the modelled `eval`. -/
inductive PErr where
  | zeroDiv
  | syntaxE
  | nonRational
deriving DecidableEq, Repr

def PyNum.toQ : PyNum → ℚ
  | .int z => (z : ℚ)
  | .float q => q

/-- `a + b` with Python's type promotion. -/
def pyAdd : PyNum → PyNum → PyNum
  | .int a, .int b => .int (a + b)
  | a, b => .float (a.toQ + b.toQ)

def pySub : PyNum → PyNum → PyNum
  | .int a, .int b => .int (a - b)
  | a, b => .float (a.toQ - b.toQ)

def pyMul : PyNum → PyNum → PyNum
  | .int a, .int b => .int (a * b)
  | a, b => .float (a.toQ * b.toQ)

/-- Python true division `/`: always a float; zero divisor raises. -/
def pyDiv (a b : PyNum) : Except PErr PyNum :=
  if b.toQ = 0 then .error .zeroDiv else .ok (.float (a.toQ / b.toQ))

/-- Python floor division `//`. -/
def pyFloorDiv : PyNum → PyNum → Except PErr PyNum
  | .int a, .int b =>
      if b = 0 then .error .zeroDiv else .ok (.int (Int.fdiv a b))
  | a, b =>
      if b.toQ = 0 then .error .zeroDiv
      else .ok (.float ((⌊a.toQ / b.toQ⌋ : ℤ) : ℚ))

/-- Python `**`: int bases with non-negative int exponents stay int, a
negative int exponent gives a float, and a non-integral exponent is outside
the rational model. -/
def pyPow : PyNum → PyNum → Except PErr PyNum
  | .int a, .int b =>
      if 0 ≤ b then .ok (.int (a ^ b.toNat))
      else if a = 0 then .error .zeroDiv
      else .ok (.float ((a : ℚ) ^ b))
  | a, b =>
      if b.toQ.den = 1 then
        if a.toQ = 0 && b.toQ.num < 0 then .error .zeroDiv
        else .ok (.float (a.toQ ^ b.toQ.num))
      else .error .nonRational

def pyNeg : PyNum → PyNum
  | .int z => .int (-z)
  | .float q => .float (-q)

/-- Tokens of the arithmetic fragment. -/
inductive ATok where
  | num (n : PyNum)
  | plusT
  | minusT
  | starT
  | slashT
  | dstarT
  | fslashT
  | lparT
  | rparT
deriving DecidableEq, Repr

def digitsVal (l : List Char) : ℕ :=
  l.foldl (fun a c => 10 * a + (c.toNat - 48)) 0

/-- Number literal from a maximal run of digits and dots. -/
def numOfRun (run : List Char) : Option PyNum :=
  let dots := run.filter (· = '.')
  let digs := run.filter pyDigit
  if dots.length = 0 then
    if digs.length = 0 then none else some (.int (digitsVal digs))
  else if dots.length = 1 then
    if digs.length = 0 then none
    else
      let intPart := run.takeWhile (· ≠ '.')
      let fracPart := (run.dropWhile (· ≠ '.')).drop 1
      some (.float ((digitsVal intPart : ℚ) +
        (digitsVal fracPart : ℚ) / ((10 : ℚ) ^ fracPart.length)))
  else none

def numRunChar (c : Char) : Bool := pyDigit c || c = '.'

/-- Tokenizer for the cleaned expression. -/
def lexArith (fuel : Nat) (l : List Char) : Except PErr (List ATok) :=
  match fuel, l with
  | _, [] => .ok []
  | 0, _ => .error .syntaxE
  | fuel + 1, c :: rest =>
    if numRunChar c then
      match numOfRun (c :: rest.takeWhile numRunChar) with
      | some n =>
          (lexArith fuel (rest.dropWhile numRunChar)).map (ATok.num n :: ·)
      | none => .error .syntaxE
    else if c = '+' then (lexArith fuel rest).map (.plusT :: ·)
    else if c = '-' then (lexArith fuel rest).map (.minusT :: ·)
    else if c = '(' then (lexArith fuel rest).map (.lparT :: ·)
    else if c = ')' then (lexArith fuel rest).map (.rparT :: ·)
    else if c = '*' then
      match rest with
      | '*' :: rest2 => (lexArith fuel rest2).map (.dstarT :: ·)
      | _ => (lexArith fuel rest).map (.starT :: ·)
    else if c = '/' then
      match rest with
      | '/' :: rest2 => (lexArith fuel rest2).map (.fslashT :: ·)
      | _ => (lexArith fuel rest).map (.slashT :: ·)
    else .error .syntaxE

mutual

/-- `expr := term {("+"|"-") term}` evaluated on the fly. -/
def parseE (fuel : Nat) (toks : List ATok) : Except PErr (PyNum × List ATok) :=
  match fuel with
  | 0 => .error .syntaxE
  | fuel + 1 =>
    match parseT fuel toks with
    | .error e => .error e
    | .ok (a, rest) => parseEloop fuel a rest

def parseEloop (fuel : Nat) (a : PyNum) (toks : List ATok) :
    Except PErr (PyNum × List ATok) :=
  match fuel with
  | 0 => .error .syntaxE
  | fuel + 1 =>
    match toks with
    | .plusT :: rest =>
        match parseT fuel rest with
        | .error e => .error e
        | .ok (b, rest2) => parseEloop fuel (pyAdd a b) rest2
    | .minusT :: rest =>
        match parseT fuel rest with
        | .error e => .error e
        | .ok (b, rest2) => parseEloop fuel (pySub a b) rest2
    | _ => .ok (a, toks)

/-- `term := unary {("*"|"/"|"//") unary}`. -/
def parseT (fuel : Nat) (toks : List ATok) : Except PErr (PyNum × List ATok) :=
  match fuel with
  | 0 => .error .syntaxE
  | fuel + 1 =>
    match parseU fuel toks with
    | .error e => .error e
    | .ok (a, rest) => parseTloop fuel a rest

def parseTloop (fuel : Nat) (a : PyNum) (toks : List ATok) :
    Except PErr (PyNum × List ATok) :=
  match fuel with
  | 0 => .error .syntaxE
  | fuel + 1 =>
    match toks with
    | .starT :: rest =>
        match parseU fuel rest with
        | .error e => .error e
        | .ok (b, rest2) => parseTloop fuel (pyMul a b) rest2
    | .slashT :: rest =>
        match parseU fuel rest with
        | .error e => .error e
        | .ok (b, rest2) =>
            match pyDiv a b with
            | .error e => .error e
            | .ok c => parseTloop fuel c rest2
    | .fslashT :: rest =>
        match parseU fuel rest with
        | .error e => .error e
        | .ok (b, rest2) =>
            match pyFloorDiv a b with
            | .error e => .error e
            | .ok c => parseTloop fuel c rest2
    | _ => .ok (a, toks)

/-- `unary := ("+"|"-") unary | power`. -/
def parseU (fuel : Nat) (toks : List ATok) : Except PErr (PyNum × List ATok) :=
  match fuel with
  | 0 => .error .syntaxE
  | fuel + 1 =>
    match toks with
    | .plusT :: rest => parseU fuel rest
    | .minusT :: rest =>
        match parseU fuel rest with
        | .error e => .error e
        | .ok (a, rest2) => .ok (pyNeg a, rest2)
    | _ => parseP fuel toks

/-- `power := atom ["**" unary]` (right-associative, exponent binds the
unary level as in Python). -/
def parseP (fuel : Nat) (toks : List ATok) : Except PErr (PyNum × List ATok) :=
  match fuel with
  | 0 => .error .syntaxE
  | fuel + 1 =>
    match parseA fuel toks with
    | .error e => .error e
    | .ok (a, rest) =>
        match rest with
        | .dstarT :: rest2 =>
            match parseU fuel rest2 with
            | .error e => .error e
            | .ok (b, rest3) =>
                match pyPow a b with
                | .error e => .error e
                | .ok c => .ok (c, rest3)
        | _ => .ok (a, rest)

/-- `atom := number | "(" expr ")"`. -/
def parseA (fuel : Nat) (toks : List ATok) : Except PErr (PyNum × List ATok) :=
  match fuel with
  | 0 => .error .syntaxE
  | fuel + 1 =>
    match toks with
    | .num n :: rest => .ok (n, rest)
    | .lparT :: rest =>
        match parseE fuel rest with
        | .error e => .error e
        | .ok (a, rest2) =>
            match rest2 with
            | .rparT :: rest3 => .ok (a, rest3)
            | _ => .error .syntaxE
    | _ => .error .syntaxE

end

/-- Model of Python `eval` on the arithmetic character set.  (One further
model boundary: a bare `"()"` evaluates to an empty tuple in Python and is
reported as a syntax error here; no extractor output contains it.) -/
def pyEvalArith (l : List Char) : Except PErr PyNum :=
  match lexArith (l.length + 1) l with
  | .error e => .error e
  | .ok toks =>
      match parseE (8 * (toks.length + 1)) toks with
      | .error e => .error e
      | .ok (n, []) => .ok n
      | .ok (_, _ :: _) => .error .syntaxE

/-- Python `str` of an `int`. -/
def pyIntStr (z : ℤ) : String :=
  if z < 0 then "-" ++ Nat.repr z.natAbs else Nat.repr z.natAbs

/-- Rendering of a result number.  A non-integral float is shown as
`num/den` (model boundary: Python prints decimal notation; every claim
exercises only integral results). -/
def pyNumStr : PyNum → String
  | .int z => pyIntStr z
  | .float q => pyIntStr q.num ++ "/" ++ Nat.repr q.den

/-- The `float.is_integer` conversion of `safe_arithmetic_eval`: a whole
float result is shown as an int. -/
def pyNumNormalize : PyNum → PyNum
  | .float q => if q.den = 1 then .int q.num else .float q
  | n => n

/-- The characters allowed by `safe_arithmetic_eval`
(`set("0123456789+-*/().**")`). -/
def allowedArithChars : List Char := "0123456789+-*/().**".data

/-- `safe_arithmetic_eval`: spaces removed, character filter, literal
`"/0"` check, then the sandboxed `eval`; returns `(success, text)`.  The
message tails after `"Invalid arithmetic expression: "` and
`"Arithmetic evaluation failed: "` stand for Python's `str(e)`. -/
def safe_arithmetic_eval (expression : String) : Bool × String :=
  let cleaned := expression.data.filter (· ≠ ' ')
  if ¬ cleaned.all (fun c => allowedArithChars.contains c) then
    (false, "Expression contains invalid characters")
  else if containsSub "/0".data cleaned || containsSub "/0.".data cleaned then
    (false, "Division by zero")
  else
    match pyEvalArith cleaned with
    | .ok n => (true, "Result: " ++ pyNumStr (pyNumNormalize n))
    | .error .zeroDiv => (false, "Division by zero")
    | .error .syntaxE => (false, "Invalid arithmetic expression: invalid syntax")
    | .error .nonRational => (false, "Arithmetic evaluation failed: non-rational power")

/-- `evaluate_basic_arithmetic`, the `ArithmeticTool.execute` body. -/
def evaluate_basic_arithmetic (expression : String) : String :=
  match safe_arithmetic_eval expression with
  | (true, result) => "**Arithmetic Result:**\n" ++ result
  | (false, result) => "**Arithmetic Error:** " ++ result

/-! ## Conversation orchestrator (`chatbot.py`) -/

/-- Outcome of `await tool.execute(expr)`: a returned value (`None` or a
string) or a raised exception with its message.  The tool implementations
are injected into the chatbot (`tools=` constructor argument), so the
orchestrator is embedded parametrically in them. -/
inductive ExecOutcome where
  | ret (r : Option String)
  | exn (msg : String)
deriving DecidableEq, Repr

/-- The injected tool registry: the three executors keyed
`basic_arithmetic` / `sympy` / `numeric`. -/
structure ToolSet where
  arith : String → ExecOutcome
  sympy : String → ExecOutcome
  numeric : String → ExecOutcome

/-- The default `ArithmeticTool().execute`, which is
`evaluate_basic_arithmetic` and never raises past its boundary. -/
def arithToolExec : String → ExecOutcome :=
  fun e => .ret (some (evaluate_basic_arithmetic e))

/-- Stand-in executor for the SymPy/mpmath-backed tools, whose engines are
external libraries not embedded here; used only in runs whose inputs never
route to them, or under explicit hypotheses. -/
def exnExec : String → ExecOutcome := fun _ => .exn "not embedded"

def ToolSet.execFor (tools : ToolSet) (name : String) : String → ExecOutcome :=
  if name = "basic_arithmetic" then tools.arith
  else if name = "sympy" then tools.sympy
  else tools.numeric

/-- f-string interpolation of an `Optional[str]` (Python prints `None`). -/
def pyOptStr : Option String → String
  | some s => s
  | none => "None"

/-- The execution step of `_execute_tool` once an expression has been
extracted: `result = await tool.execute(expr)` with the exception barrier
converting a raised error into a `"Tool Error (<name>): <message>"`
string, and the correction override (checked against the user input first,
then against `result or ""`) producing the annotated combined text. -/
def runExec (bot : Chatbot) (user_input tool_name : String)
    (f : String → ExecOutcome) (e : String) : Option String :=
  match f e with
  | .exn msg => some ("Tool Error (" ++ tool_name ++ "): " ++ msg)
  | .ret result =>
      let applicable :=
        match find_applicable_correction bot user_input with
        | some c => some c
        | none => find_applicable_correction bot (result.getD "")
      match applicable with
      | some c =>
          some ("[Korrektur angewendet] " ++ c.correction ++
            "\n\n[Original Ergebnis:]\n" ++ pyOptStr result)
      | none => result

/-- `MathTutorChatbot._execute_tool`: unknown tools answer
`"Unknown tool: …"`, the expression is extracted by tool kind, and a truthy
extraction runs `runExec`.  Returns `none` where Python returns `None`
(no or falsy extracted expression). -/
def execute_tool (bot : Chatbot) (tools : ToolSet) (tool_name user_input : String) :
    Option String :=
  if tool_name ∉ ["basic_arithmetic", "sympy", "numeric"] then
    some ("Unknown tool: " ++ tool_name)
  else
    let expr := if tool_name = "basic_arithmetic" then
        detect_basic_arithmetic user_input
      else detect_math_expression user_input
    match expr with
    | some e =>
      if e = "" then none
      else runExec bot user_input tool_name (tools.execFor tool_name) e
    | none => none

/-- What one turn observes of the streaming client inside
`generate_response`: the fragments received, then either normal completion
(`failure = none`) or an exception with message `e` (`failure = some e`). -/
structure StreamOutcome where
  chunks : List String
  failure : Option String

/-- `MathTutorChatbot.generate_response`: appends the user message, streams,
converts a client failure into one `"Error: …"` fragment (without adding it
to `full_response`), and appends the accumulated `full_response` as the
assistant message.  Returns the yielded fragments and the new state. -/
def generate_response (bot : Chatbot) (stream : StreamOutcome) (user_input : String) :
    List String × Chatbot :=
  let bot1 := add_message bot "user" user_input
  let full_response := String.join stream.chunks
  let yielded := stream.chunks ++
    (match stream.failure with
     | some e => ["Error: " ++ e]
     | none => [])
  (yielded, add_message bot1 "assistant" full_response)

/-- The events yielded by `generate_response_with_tools`
(`{"type": "chunk"| "tool_result", ...}`). -/
inductive StreamEvent where
  | chunk (content : String)
  | toolResult (tool : String) (content : String)
deriving DecidableEq, Repr

/-- `MathTutorChatbot.generate_response_with_tools`: when a tool intent is
detected and the tool produces a truthy (non-`None`, non-empty) result, one
`tool_result` event is yielded and the result is appended as the assistant
message; otherwise the turn falls through to `generate_response`. -/
def generate_response_with_tools (bot : Chatbot) (tools : ToolSet)
    (stream : StreamOutcome) (user_input : String) : List StreamEvent × Chatbot :=
  let gen := fun (_ : Unit) =>
    let p := generate_response bot stream user_input
    (p.1.map StreamEvent.chunk, p.2)
  match detect_tool_intent user_input with
  | some tool_name =>
      match execute_tool bot tools tool_name user_input with
      | some tool_result =>
          if tool_result = "" then gen ()
          else ([.toolResult tool_name tool_result],
            add_message bot "assistant" tool_result)
      | none => gen ()
  | none => gen ()

/-! ## UI message handling (`ui/handlers.py`, `ui/formatters.py`) -/

/-- `MessageFormatter.format_message_chunk`. -/
def format_message_chunk : StreamEvent → String
  | .toolResult tool content =>
      "[" ++ String.mk (pyUpper tool.data) ++ "] " ++ content
  | .chunk content => content

/-- The fixed acknowledgement returned after registering a correction. -/
def correctionAck : String :=
  "Danke — ich habe die Korrektur gelernt und werde sie bei passenden Aufgaben berücksichtigen."

/-- `MessageHandler.handle_message`: empty messages return `""`; a stripped
message beginning (case-sensitively) with `korrektur:` or `korrigiere:`
registers a correction from the raw message's first-`:` remainder (split on
`=>` into pattern and correction when present) and returns the fixed
acknowledgement; anything else runs the normal
`generate_response_with_tools` flow and concatenates the formatted
events. -/
def handle_message (bot : Chatbot) (tools : ToolSet) (stream : StreamOutcome)
    (message : String) : String × Chatbot :=
  if pyStripS message = "" then ("", bot)
  else
    let lowered := pyStripS message
    if pyStartsWith "korrektur:" lowered || pyStartsWith "korrigiere:" lowered then
      let payload := pyStripS (pySplitFirst ":" message).2
      if containsSubS "=>" payload then
        let pieces := pySplitFirst "=>" payload
        let bot2 := add_correction (some (pyStripS pieces.1)) (pyStripS pieces.2) none bot
        (correctionAck, bot2)
      else
        let bot2 := add_correction none payload none bot
        (correctionAck, bot2)
    else
      let p := generate_response_with_tools bot tools stream message
      (String.join (p.1.map format_message_chunk), p.2)

/-! ## Auxiliary notions for the verification -/

/-- The characters a regex can possibly consume (union of its character
classes). -/
def reChars : RE → Char → Bool
  | .eps => fun _ => false
  | .wordB => fun _ => false
  | .cls p => p
  | .seq a b => fun c => reChars a c || reChars b c
  | .alt a b => fun c => reChars a c || reChars b c
  | .star r => reChars r
  | .opt r => reChars r

/-- Syntactic criterion guaranteeing every match consumes at least one
character. -/
def mustConsume : RE → Bool
  | .eps => false
  | .wordB => false
  | .cls _ => true
  | .seq a b => mustConsume a || mustConsume b
  | .alt a b => mustConsume a && mustConsume b
  | .star _ => false
  | .opt _ => false

/-- Every character that can occur in a string returned by
`detect_basic_arithmetic` (digits, dot, whitespace, the four operators,
parentheses, `*` of `**`). -/
def arithExtractChars : List Char :=
  ['0', '1', '2', '3', '4', '5', '6', '7', '8', '9', '.', '+', '-', '*', '/',
   '(', ')', ' ', '\t', '\n', '\r', '\x0B', '\x0C']

/-- One `add_correction` invocation's arguments. -/
structure AddOp where
  pattern : Option String
  correction : String
  explanation : Option String

/-- A sequence of `add_correction` calls applied in order (first element
added first). -/
def applyAdds (bot : Chatbot) (ops : List AddOp) : Chatbot :=
  ops.foldl (fun b a => add_correction a.pattern a.correction a.explanation b) bot

/-- The default tool registry of `MathTutorChatbot.__init__`
(`ArithmeticTool` / `SymPyTool` / `NumericTool`), with the two
external-engine tools stubbed (see `exnExec`). -/
def defaultTools : ToolSet := ⟨arithToolExec, exnExec, exnExec⟩

/-- Property of a tool executor that never returns a falsy result: it
raises, or returns a non-`None`, non-empty string.  The three default tools
all format their output with a non-empty prefix, so they satisfy it. -/
def GoodExec (f : String → ExecOutcome) : Prop :=
  ∀ e, f e ≠ .ret none ∧ f e ≠ .ret (some "")

/-! # Theorems -/

/-- Helper: the corrections list after a sequence of adds is the entries in
most-recently-added-first order, on top of the initial list. -/
theorem applyAdds_corrections (bot : Chatbot) (ops : List AddOp) :
    (applyAdds bot ops).corrections =
      (ops.reverse.map fun a => mkCorrectionEntry a.pattern a.correction a.explanation)
        ++ bot.corrections := by
  induction ops generalizing bot with
  | nil => simp [applyAdds]
  | cons a t ih =>
      simp only [applyAdds, List.foldl_cons, List.reverse_cons, List.map_append,
        List.map_cons, List.map_nil]
      have := ih (add_correction a.pattern a.correction a.explanation bot)
      simp only [applyAdds] at this
      rw [this]
      simp [add_correction]

/-- C7: `find_applicable_correction` returns the most-recently-added stored
correction whose non-empty pattern occurs as a case-insensitive substring
of the text (`matchesCorrection`); since `add_correction` inserts at the
head, searching head-to-tail over a store built by a sequence of adds
returns the latest matching add, and entries with an empty pattern are
skipped (the `matchesCorrection` test is false on them). -/
theorem c7_most_recent_match (conv : List ChatMessage) (ops : List AddOp) (text : String) :
    find_applicable_correction (applyAdds ⟨conv, []⟩ ops) text =
      (ops.reverse.map fun a => mkCorrectionEntry a.pattern a.correction a.explanation).find?
        (matchesCorrection text) := by
  rw [find_applicable_correction, applyAdds_corrections]
  simp

/-- C9: closing the client twice is a no-op the second time — the state is
unchanged and no teardown action (in particular no teardown error) occurs,
whatever the first close did. -/
theorem c9_close_idempotent (c : OllamaClient) (b1 b2 : Bool) :
    close (close c b1).1 b2 = ((close c b1).1, []) := by
  unfold close
  cases hc : c.is_closed <;> simp [hc]

/-- C2 witnessable form: when every attempt up to the fourth fails with the
same connection error `e`, `chat_stream` with `retries = 3`,
`retry_delay = 1` makes exactly 4 attempts, sleeps `1, 2, 4` between
consecutive attempts, reconnects before each retry, and re-raises `e`. -/
theorem c2_retry_backoff (e : String) (attempts : Nat → AttemptResult)
    (h : ∀ i, i ≤ 3 → attempts i = .fail [] .conn e) :
    chat_stream attempts 3 1 =
      { fragments := [], sleeps := [1, 2, 4], reconnects := 3,
        attemptsMade := 4, raised := some e } := by
  have h0 := h 0 (by norm_num)
  have h1 := h 1 (by norm_num)
  have h2 := h 2 (by norm_num)
  have h3 := h 3 (by norm_num)
  simp [chat_stream, chat_stream_loop, h0, h1, h2, h3]
  norm_num

/-- Witness for C2 at the constant connection failure. -/
theorem c2_retry_backoff_witness :
    chat_stream (fun _ => .fail [] .conn "ConnectError") 3 1 =
      { fragments := [], sleeps := [1, 2, 4], reconnects := 3,
        attemptsMade := 4, raised := some "ConnectError" } :=
  c2_retry_backoff "ConnectError" _ (fun _ _ => rfl)

/-- C6 counterexample: a line whose `done` flag is true but which also
carries a `message.content` field does NOT terminate the stream — the
following line is still processed and still yields a fragment, so the
result is `["x", "y"]` and not the `["x"]` that termination at the first
line would give. -/
theorem c6_counterexample :
    processLines [.data (some "x") true, .data (some "y") false] = ["x", "y"] ∧
    (["x", "y"] : List String) ≠ ["x"] := by
  exact ⟨rfl, by decide⟩

/-- C6 amended: each streamed line is handled independently — a line with a
`message.content` field yields the content when non-empty and suppresses it
when empty, and (because of the `elif`) never terminates the stream even
when its `done` flag is also true; only a `done` line *without* a
`message.content` field terminates (nothing after it is processed);
malformed and blank lines are skipped without aborting.  The specified
scenario `Hi` / ` there` / done follows. -/
theorem c6_line_handling :
    (∀ rest, processLines (.blank :: rest) = processLines rest) ∧
    (∀ rest, processLines (.malformed :: rest) = processLines rest) ∧
    (∀ (c : String) (d : Bool) rest, c ≠ "" →
        processLines (.data (some c) d :: rest) = c :: processLines rest) ∧
    (∀ (d : Bool) rest, processLines (.data (some "") d :: rest) = processLines rest) ∧
    (∀ rest, processLines (.data none true :: rest) = []) ∧
    (∀ rest, processLines (.data none false :: rest) = processLines rest) ∧
    processLines [.data (some "Hi") false, .data (some " there") false, .data none true]
      = ["Hi", " there"] := by
  refine ⟨fun _ => rfl, fun _ => rfl, ?_, fun _ _ => by simp [processLines],
    fun _ => rfl, fun _ => rfl, rfl⟩
  intro c d rest hc
  simp [processLines, hc]

/-- Witness for C6 amended, instantiating the content-line equation at a
line that carries both content and a true `done` flag. -/
theorem c6_line_handling_witness :
    processLines [.data (some "Hi") true, .data none true] =
      "Hi" :: processLines [.data none true] :=
  c6_line_handling.2.2.1 "Hi" true [.data none true] (by decide)

/-- C3 counterexample: when the client fails immediately, the orchestrator
yields the single error chunk `"Error: boom"`, but the assistant message
appended to history is the empty accumulated response — the error text is
NOT appended to history, contradicting the claim. -/
theorem c3_counterexample :
    (generate_response ⟨[], []⟩ ⟨[], some "boom"⟩ "hi").1 = ["Error: boom"] ∧
    (generate_response ⟨[], []⟩ ⟨[], some "boom"⟩ "hi").2.conversation =
      [⟨"user", "hi", none, none⟩, ⟨"assistant", "", none, none⟩] ∧
    containsSubS "Error: boom" "" = false := by
  exact ⟨rfl, rfl, by decide⟩

/-- C3 amended: a failure surfaced from the client is converted into
exactly one `"Error: …"` chunk appended after the fragments received
before the failure (no exception propagates — the function is total), and
the assistant message appended to history is only the concatenation of the
pre-failure fragments, without the error text. -/
theorem c3_error_chunk (bot : Chatbot) (chunks : List String) (e user_input : String) :
    generate_response bot ⟨chunks, some e⟩ user_input =
      (chunks ++ ["Error: " ++ e],
        { bot with conversation := bot.conversation ++
            [⟨"user", user_input, none, none⟩,
             ⟨"assistant", String.join chunks, none, none⟩] }) := by
  simp [generate_response, add_message]

/-- C10: the correction-teaching marker is matched case-sensitively against
the stripped raw message.  `"Korrektur: …"` (capital K) is not registered
(the correction store stays empty) and is processed as an ordinary
classification turn (here the arithmetic tool answers the embedded `2+2`),
while the lowercase `"korrektur: …"` registers the correction and returns
the fixed acknowledgement. -/
theorem c10_marker_case_sensitive :
    (handle_message ⟨[], []⟩ defaultTools ⟨[], none⟩
        "Korrektur: 2+2 => Ergebnis ist 5 (Sonderregel)").2.corrections = [] ∧
    (handle_message ⟨[], []⟩ defaultTools ⟨[], none⟩
        "Korrektur: 2+2 => Ergebnis ist 5 (Sonderregel)").1
      = "[BASIC_ARITHMETIC] **Arithmetic Result:**\nResult: 4" ∧
    (handle_message ⟨[], []⟩ defaultTools ⟨[], none⟩
        "korrektur: 2+2 => Ergebnis ist 5 (Sonderregel)").2.corrections
      = [⟨"2+2", "Ergebnis ist 5 (Sonderregel)", ""⟩] ∧
    (handle_message ⟨[], []⟩ defaultTools ⟨[], none⟩
        "korrektur: 2+2 => Ergebnis ist 5 (Sonderregel)").1 = correctionAck := by
  exact ⟨rfl, rfl, rfl, rfl⟩

set_option maxRecDepth 40000 in
/-- C8: after teaching
`korrektur: 2+2 => Ergebnis ist 5 (Sonderregel)` (which stores the pattern
`2+2`), submitting `2+2` yields a tool result containing the correction
text `Ergebnis ist 5` and, for traceability, the original arithmetic tool
output containing `Result: 4`. -/
theorem c8_correction_scenario :
    ((handle_message
        (handle_message ⟨[], []⟩ defaultTools ⟨[], none⟩
          "korrektur: 2+2 => Ergebnis ist 5 (Sonderregel)").2
        defaultTools ⟨[], none⟩ "2+2").1
      = "[BASIC_ARITHMETIC] [Korrektur angewendet] Ergebnis ist 5 (Sonderregel)\n\n[Original Ergebnis:]\n**Arithmetic Result:**\nResult: 4") ∧
    containsSubS "Ergebnis ist 5"
      ("[BASIC_ARITHMETIC] [Korrektur angewendet] Ergebnis ist 5 (Sonderregel)\n\n[Original Ergebnis:]\n**Arithmetic Result:**\nResult: 4") = true ∧
    containsSubS "Result: 4"
      ("[BASIC_ARITHMETIC] [Korrektur angewendet] Ergebnis ist 5 (Sonderregel)\n\n[Original Ergebnis:]\n**Arithmetic Result:**\nResult: 4") = true := by
  exact ⟨rfl, by decide, by decide⟩

/-- C4 counterexample: on the tool-handled turn `2+2` the orchestrator
appends only the assistant tool-result message — no message with role
`user` (in particular not the utterance itself) is added to history. -/
theorem c4_counterexample :
    (generate_response_with_tools ⟨[], []⟩ defaultTools ⟨[], none⟩ "2+2").2.conversation =
      [⟨"assistant", "**Arithmetic Result:**\nResult: 4", none, none⟩] ∧
    ChatMessage.mk "user" "2+2" none none ∉
      (generate_response_with_tools ⟨[], []⟩ defaultTools ⟨[], none⟩ "2+2").2.conversation := by
  refine ⟨rfl, ?_⟩
  intro hmem
  rw [show (generate_response_with_tools ⟨[], []⟩ defaultTools ⟨[], none⟩ "2+2").2.conversation =
      [⟨"assistant", "**Arithmetic Result:**\nResult: 4", none, none⟩] from rfl] at hmem
  simp at hmem

/-- C4 amended: the utterance is appended to history with role `user` only
on generation turns; on a turn the tool path handles (a tool intent with a
truthy tool result), only the assistant message holding the tool result is
appended. -/
theorem c4_user_message_only_on_generation (bot : Chatbot) (tools : ToolSet)
    (stream : StreamOutcome) (input : String) :
    (detect_tool_intent input = none →
      (generate_response_with_tools bot tools stream input).2.conversation =
        bot.conversation ++ [⟨"user", input, none, none⟩,
          ⟨"assistant", String.join stream.chunks, none, none⟩]) ∧
    (∀ t r, detect_tool_intent input = some t →
      execute_tool bot tools t input = some r → r ≠ "" →
      (generate_response_with_tools bot tools stream input).2.conversation =
        bot.conversation ++ [⟨"assistant", r, none, none⟩]) := by
  constructor
  · intro hnone
    simp [generate_response_with_tools, hnone, generate_response, add_message]
  · intro t r hdet hexec hr
    simp [generate_response_with_tools, hdet, hexec, hr, add_message]

/-- Witness for C4 amended: the generation conjunct at `hello` (no tool
intent) and the tool conjunct at `2+2`. -/
theorem c4_user_message_only_on_generation_witness :
    (generate_response_with_tools ⟨[], []⟩ defaultTools ⟨["ok"], none⟩ "hello").2.conversation
      = [⟨"user", "hello", none, none⟩, ⟨"assistant", "ok", none, none⟩] ∧
    (generate_response_with_tools ⟨[], []⟩ defaultTools ⟨[], none⟩ "2+2").2.conversation
      = [⟨"assistant", "**Arithmetic Result:**\nResult: 4", none, none⟩] := by
  constructor
  · have h := (c4_user_message_only_on_generation ⟨[], []⟩ defaultTools ⟨["ok"], none⟩
      "hello").1 (by rfl)
    simpa [String.join] using h
  · exact (c4_user_message_only_on_generation ⟨[], []⟩ defaultTools ⟨[], none⟩ "2+2").2
      "basic_arithmetic" "**Arithmetic Result:**\nResult: 4" (by rfl) (by rfl) (by decide)

/-- Helper: a string with a non-empty prefix is non-empty. -/
theorem append_ne_empty_of_left (a b : String) (h : a.data ≠ []) : a ++ b ≠ "" := by
  intro hab
  apply h
  have hd : (a ++ b).data = ("" : String).data := by rw [hab]
  rw [String.data_append a b] at hd
  exact (List.append_eq_nil.mp hd).1

/-- Helper: a four-part concatenation with a non-empty head is non-empty. -/
theorem append3_ne_empty (a x b y : String) (ha : a.data ≠ []) :
    a ++ x ++ b ++ y ≠ "" := by
  intro hcontra
  have hd : (a ++ x ++ b ++ y).data = ("" : String).data := by rw [hcontra]
  rw [String.data_append, String.data_append, String.data_append] at hd
  exact ha (List.append_eq_nil.mp (List.append_eq_nil.mp
    (List.append_eq_nil.mp hd).1).1).1

/-- Helper: the arithmetic tool's output always carries one of the two
non-empty prefixes, hence is never empty. -/
theorem evaluate_basic_arithmetic_ne_empty (e : String) :
    evaluate_basic_arithmetic e ≠ "" := by
  unfold evaluate_basic_arithmetic
  rcases h : safe_arithmetic_eval e with ⟨b, r⟩
  cases b
  · exact append_ne_empty_of_left _ _ (by decide)
  · exact append_ne_empty_of_left _ _ (by decide)

/-- Helper: the default arithmetic executor satisfies `GoodExec`. -/
theorem arithToolExec_good : GoodExec arithToolExec := by
  intro e
  constructor
  · simp [arithToolExec]
  · simp [arithToolExec, evaluate_basic_arithmetic_ne_empty e]

/-- Helper: the stub executor satisfies `GoodExec` (it always raises). -/
theorem exnExec_good : GoodExec exnExec := by
  intro e
  exact ⟨by simp [exnExec], by simp [exnExec]⟩

/-- Helper: a detected tool intent comes with a non-empty extracted
expression of the corresponding kind. -/
theorem detect_tool_intent_shape (input t : String)
    (h : detect_tool_intent input = some t) :
    (t = "basic_arithmetic" ∧ ∃ e, detect_basic_arithmetic input = some e ∧ e ≠ "") ∨
    ((t = "sympy" ∨ t = "numeric") ∧ ∃ e, detect_math_expression input = some e ∧ e ≠ "") := by
  unfold detect_tool_intent at h
  by_cases hb : is_basic_arithmetic input
  · left
    rw [if_pos hb] at h
    refine ⟨(Option.some.inj h).symm, ?_⟩
    unfold is_basic_arithmetic at hb
    cases hd : detect_basic_arithmetic input with
    | none => rw [hd] at hb; simp at hb
    | some e =>
        rw [hd] at hb
        by_cases he : e = ""
        · simp [he] at hb
        · exact ⟨e, rfl, he⟩
  · right
    rw [if_neg hb] at h
    cases hm : detect_math_expression input with
    | none => rw [hm] at h; simp at h
    | some e =>
        rw [hm] at h
        by_cases he : e = ""
        · simp [he] at h
        · refine ⟨?_, e, rfl, he⟩
          by_cases hsy : should_use_sympy input
          · simp [he, hsy] at h
            left; exact h.symm
          · simp [he, hsy] at h
            right; exact h.symm

/-- Helper: under `GoodExec` executors, a detected tool always produces a
non-empty result string from `_execute_tool` (exceptions included, via the
`Tool Error` barrier). -/
theorem runExec_good (bot : Chatbot) (input tname : String)
    (f : String → ExecOutcome) (e : String) (hf : GoodExec f) :
    ∃ r, runExec bot input tname f e = some r ∧ r ≠ "" := by
  unfold runExec
  cases hfe : f e with
  | exn msg =>
      refine ⟨"Tool Error (" ++ tname ++ "): " ++ msg, rfl, ?_⟩
      intro hcontra
      have hd : ("Tool Error (" ++ tname ++ "): " ++ msg).data = ("" : String).data := by
        rw [hcontra]
      rw [String.data_append, String.data_append, String.data_append] at hd
      have := (List.append_eq_nil.mp (List.append_eq_nil.mp
        (List.append_eq_nil.mp hd).1).1).1
      simp at this
  | ret result =>
      have hgood := hf e
      rw [hfe] at hgood
      cases result with
      | none => exact absurd rfl hgood.1
      | some sres =>
          have hsres : sres ≠ "" := fun hcontra => hgood.2 (by rw [hcontra])
          dsimp only
          cases find_applicable_correction bot input with
          | some c =>
              exact ⟨_, rfl, append3_ne_empty "[Korrektur angewendet] " _ _ _ (by decide)⟩
          | none =>
              dsimp only [Option.getD]
              cases find_applicable_correction bot sres with
              | some c =>
                  exact ⟨_, rfl, append3_ne_empty "[Korrektur angewendet] " _ _ _ (by decide)⟩
              | none => exact ⟨sres, rfl, hsres⟩

/-- Helper: under `GoodExec` executors, a detected tool always produces a
non-empty result string from `_execute_tool`. -/
theorem execute_tool_good (bot : Chatbot) (tools : ToolSet) (input t : String)
    (hdet : detect_tool_intent input = some t)
    (ha : GoodExec tools.arith) (hs : GoodExec tools.sympy)
    (hn : GoodExec tools.numeric) :
    ∃ r, execute_tool bot tools t input = some r ∧ r ≠ "" := by
  rcases detect_tool_intent_shape input t hdet with ⟨ht, e, he, hne⟩ | ⟨ht, e, he, hne⟩
  · subst ht
    have hexec : ToolSet.execFor tools "basic_arithmetic" = tools.arith := by
      simp [ToolSet.execFor]
    have := runExec_good bot input "basic_arithmetic" tools.arith e ha
    simpa [execute_tool, hexec, he, hne] using this
  · rcases ht with ht | ht <;> subst ht
    · have hexec : ToolSet.execFor tools "sympy" = tools.sympy := by
        simp [ToolSet.execFor]
      have := runExec_good bot input "sympy" tools.sympy e hs
      simpa [execute_tool, hexec, he, hne] using this
    · have hexec : ToolSet.execFor tools "numeric" = tools.numeric := by
        simp [ToolSet.execFor]
      have := runExec_good bot input "numeric" tools.numeric e hn
      simpa [execute_tool, hexec, he, hne] using this

/-- C5: on a turn whose classifier selects a tool, and with executors that
never return a falsy result (the default tools format every outcome with a
non-empty prefix, and any raised exception is converted to a
`Tool Error (<name>)` string), the orchestrator emits exactly one
`ToolResult` event, appends it as the assistant message, and stops — the
result is the same whatever the streaming backend would have produced, so
the backend is never consulted. -/
theorem c5_tool_turn_single_event (bot : Chatbot) (tools : ToolSet) (input t : String)
    (hdet : detect_tool_intent input = some t)
    (ha : GoodExec tools.arith) (hs : GoodExec tools.sympy)
    (hn : GoodExec tools.numeric) :
    ∃ r, r ≠ "" ∧ ∀ stream : StreamOutcome,
      generate_response_with_tools bot tools stream input =
        ([.toolResult t r], add_message bot "assistant" r) := by
  obtain ⟨r, hr, hne⟩ := execute_tool_good bot tools input t hdet ha hs hn
  refine ⟨r, hne, fun stream => ?_⟩
  simp [generate_response_with_tools, hdet, hr, hne]

/-- Witness for C5 at the turn `2+2` with the default tool registry. -/
theorem c5_tool_turn_single_event_witness :
    ∃ r, r ≠ "" ∧ ∀ stream : StreamOutcome,
      generate_response_with_tools ⟨[], []⟩ defaultTools stream "2+2" =
        ([.toolResult "basic_arithmetic" r], add_message ⟨[], []⟩ "assistant" r) :=
  c5_tool_turn_single_event ⟨[], []⟩ defaultTools "2+2" "basic_arithmetic" (by rfl)
    arithToolExec_good exnExec_good exnExec_good

/-! ### Character discipline of the regex engine (towards C1) -/

/-- Helper: every candidate end position of a match lies at or after the
start, within the text bounds, and every character the match spans
satisfies the union of the pattern's character classes. -/
theorem ends_spec (fuel : Nat) (r : RE) (s : List Char) (i j : Nat)
    (hi : i ≤ s.length) (hj : j ∈ ends fuel r s i) :
    i ≤ j ∧ j ≤ s.length ∧ ∀ c ∈ (s.drop i).take (j - i), reChars r c = true := by
  induction fuel generalizing r i j with
  | zero => simp [ends] at hj
  | succ fuel ih =>
    cases r with
    | eps =>
        simp [ends] at hj
        subst hj
        simp [hi]
    | wordB =>
        by_cases hw : wordBoundaryAt s i
        · simp [ends, hw] at hj
          subst hj
          simp [hi]
        · simp [ends, hw] at hj
    | cls p =>
        cases hg : s[i]? with
        | none => simp [ends, hg] at hj
        | some c =>
            by_cases hp : p c
            · simp [ends, hg, hp] at hj
              subst hj
              have hlen : i < s.length := by
                by_contra hcon
                rw [List.getElem?_eq_none (by omega)] at hg
                exact Option.noConfusion hg
              refine ⟨by omega, by omega, ?_⟩
              have hd0 : (s.drop i)[0]? = some c := by
                rw [List.getElem?_drop]
                simpa using hg
              cases hdrop : s.drop i with
              | nil => rw [hdrop] at hd0; simp at hd0
              | cons x xs =>
                  rw [hdrop] at hd0
                  simp at hd0
                  subst hd0
                  intro c' hc'
                  have : i + 1 - i = 1 := by omega
                  rw [this] at hc'
                  simp at hc'
                  subst hc'
                  simpa [reChars] using hp
            · simp [ends, hg, hp] at hj
    | seq a b =>
        simp only [ends, List.mem_flatMap] at hj
        obtain ⟨m, hm, hjm⟩ := hj
        obtain ⟨him, hmlen, hcha⟩ := ih a i m hi hm
        obtain ⟨hmj, hjlen, hchb⟩ := ih b m j hmlen hjm
        refine ⟨by omega, hjlen, ?_⟩
        have hsplit : (s.drop i).take (j - i) =
            (s.drop i).take (m - i) ++ (s.drop m).take (j - m) := by
          have h1 : j - i = (m - i) + (j - m) := by omega
          rw [h1, List.take_add, List.drop_drop]
          have h2 : i + (m - i) = m := by omega
          rw [h2]
        intro c hc
        rw [hsplit] at hc
        rcases List.mem_append.mp hc with hc | hc
        · simp [reChars, hcha c hc]
        · simp [reChars, hchb c hc]
    | alt a b =>
        simp only [ends, List.mem_append] at hj
        rcases hj with hj | hj
        · obtain ⟨h1, h2, h3⟩ := ih a i j hi hj
          exact ⟨h1, h2, fun c hc => by simp [reChars, h3 c hc]⟩
        · obtain ⟨h1, h2, h3⟩ := ih b i j hi hj
          exact ⟨h1, h2, fun c hc => by simp [reChars, h3 c hc]⟩
    | opt a =>
        simp only [ends, List.mem_append] at hj
        rcases hj with hj | hj
        · obtain ⟨h1, h2, h3⟩ := ih a i j hi hj
          exact ⟨h1, h2, fun c hc => by simpa [reChars] using h3 c hc⟩
        · simp at hj
          subst hj
          simp [hi]
    | star a =>
        simp only [ends, List.mem_append, List.mem_flatMap, List.mem_filter] at hj
        rcases hj with ⟨m, ⟨hm, hlt⟩, hjm⟩ | hj
        · obtain ⟨him, hmlen, hcha⟩ := ih a i m hi hm
          obtain ⟨hmj, hjlen, hchs⟩ := ih (.star a) m j hmlen hjm
          refine ⟨by omega, hjlen, ?_⟩
          have hsplit : (s.drop i).take (j - i) =
              (s.drop i).take (m - i) ++ (s.drop m).take (j - m) := by
            have h1 : j - i = (m - i) + (j - m) := by omega
            rw [h1, List.take_add, List.drop_drop]
            have h2 : i + (m - i) = m := by omega
            rw [h2]
          intro c hc
          rw [hsplit] at hc
          rcases List.mem_append.mp hc with hc | hc
          · simpa [reChars] using hcha c hc
          · simpa [reChars] using hchs c hc
        · simp at hj
          subst hj
          simp [hi]

/-- Helper: a pattern satisfying `mustConsume` never matches the empty
string — every candidate end position is strictly after the start. -/
theorem ends_consumes (fuel : Nat) (r : RE) (s : List Char) (i j : Nat)
    (hi : i ≤ s.length) (hr : mustConsume r = true) (hj : j ∈ ends fuel r s i) :
    i < j := by
  induction fuel generalizing r i j with
  | zero => simp [ends] at hj
  | succ fuel ih =>
    cases r with
    | eps => simp [mustConsume] at hr
    | wordB => simp [mustConsume] at hr
    | star a => simp [mustConsume] at hr
    | opt a => simp [mustConsume] at hr
    | cls p =>
        cases hg : s[i]? with
        | none => simp [ends, hg] at hj
        | some c =>
            by_cases hp : p c
            · simp [ends, hg, hp] at hj
              omega
            · simp [ends, hg, hp] at hj
    | seq a b =>
        simp only [ends, List.mem_flatMap] at hj
        obtain ⟨m, hm, hjm⟩ := hj
        obtain ⟨him, hmlen, -⟩ := ends_spec fuel a s i m hi hm
        obtain ⟨hmj, -, -⟩ := ends_spec fuel b s m j hmlen hjm
        simp only [mustConsume, Bool.or_eq_true] at hr
        rcases hr with hr | hr
        · have := ih a i m hi hr hm
          omega
        · have := ih b m j hmlen hr hjm
          omega
    | alt a b =>
        simp only [ends, List.mem_append] at hj
        simp only [mustConsume, Bool.and_eq_true] at hr
        rcases hj with hj | hj
        · exact ih a i j hi hr.1 hj
        · exact ih b i j hi hr.2 hj

/-- Helper: a successful scan step returns a genuine match: a start within
bounds and an end position among the match candidates at that start. -/
theorem firstMatchFromF_spec (r : RE) (s : List Char) (fuel start a b : Nat)
    (h : firstMatchFromF r s fuel start = some (a, b)) :
    a ≤ s.length ∧ b ∈ ends (reFuel s) r s a := by
  induction fuel generalizing start with
  | zero => simp [firstMatchFromF] at h
  | succ fuel ih =>
      rw [firstMatchFromF] at h
      by_cases hgt : start > s.length
      · rw [if_pos hgt] at h
        exact Option.noConfusion h
      · rw [if_neg hgt] at h
        cases hh : (ends (reFuel s) r s start).head? with
        | some j =>
            rw [hh] at h
            have hab : start = a ∧ j = b := by
              have := Option.some.inj h
              exact ⟨congrArg Prod.fst this, congrArg Prod.snd this⟩
            obtain ⟨rfl, rfl⟩ := hab
            exact ⟨by omega, List.mem_of_mem_head? hh⟩
        | none =>
            rw [hh] at h
            exact ih (start + 1) h

/-- Helper: every span produced by the findall scan is a genuine match. -/
theorem findallFrom_spec (r : RE) (s : List Char) (fuel pos a b : Nat)
    (h : (a, b) ∈ findallFrom r s fuel pos) :
    a ≤ s.length ∧ b ∈ ends (reFuel s) r s a := by
  induction fuel generalizing pos with
  | zero => simp [findallFrom] at h
  | succ fuel ih =>
      rw [findallFrom] at h
      cases hfm : firstMatchFrom r s pos with
      | none => rw [hfm] at h; simp at h
      | some ab =>
          rw [hfm] at h
          rcases List.mem_cons.mp h with h1 | h1
          · rcases ab with ⟨a', b'⟩
            have hab : a' = a ∧ b' = b := by
              have h2 := Prod.mk.injEq a b a' b' ▸ h1
              exact ⟨(Prod.mk.inj h1).1.symm, (Prod.mk.inj h1).2.symm⟩
            obtain ⟨rfl, rfl⟩ := hab
            exact firstMatchFromF_spec r s _ pos a' b' hfm
          · exact ih _ h1

/-- Helper: a string in the result of `findallStrings` of a pattern that
must consume is non-empty and made only of the pattern's characters. -/
theorem findallStrings_spec (r : RE) (s : List Char) (m : String)
    (hmc : mustConsume r = true) (hm : m ∈ findallStrings r s) :
    m.data ≠ [] ∧ ∀ c ∈ m.data, reChars r c = true := by
  unfold findallStrings at hm
  rcases List.mem_map.mp hm with ⟨⟨a, b⟩, hab, hsub⟩
  obtain ⟨halen, hends⟩ := findallFrom_spec r s _ 0 a b hab
  obtain ⟨hab2, hblen, hchars⟩ := ends_spec (reFuel s) r s a b halen hends
  have hlt : a < b := ends_consumes (reFuel s) r s a b halen hmc hends
  have hdata : m.data = (s.drop a).take (b - a) := by
    rw [← hsub]; rfl
  constructor
  · rw [hdata]
    intro hnil
    have := congrArg List.length hnil
    simp at this
    omega
  · intro c hc
    rw [hdata] at hc
    exact hchars c hc

/-- Helper: `max(matches, key=len)` returns an element of the list. -/
theorem maxByLen_mem (h : String) (t : List String) : maxByLen h t ∈ h :: t := by
  induction t generalizing h with
  | nil => simp [maxByLen]
  | cons x xs ih =>
      have hstep : maxByLen h (x :: xs) =
          maxByLen (if h.length < x.length then x else h) xs := by
        simp [maxByLen]
      rw [hstep]
      rcases List.mem_cons.mp (ih (if h.length < x.length then x else h)) with h1 | h1
      · by_cases hc : h.length < x.length
        · rw [if_pos hc] at h1 ⊢
          rw [h1]; simp
        · rw [if_neg hc] at h1 ⊢
          rw [h1]; simp
      · simp [h1]

/-- Helper: decomposition of a captured triple of a natural-language
pattern into the three group spans, with their matches and bounds. -/
theorem nlCandidates_spec (sp : NLSpec) (s : List Char) (i : Nat)
    (g : String × String × String) (hi : i ≤ s.length) (hg : g ∈ nlCandidates sp s i) :
    ∃ j0 j1 j2 j3 j4 j5,
      j0 ≤ s.length ∧ j2 ≤ s.length ∧ j4 ≤ s.length ∧
      j1 ∈ ends (reFuel s) sp.g1 s j0 ∧
      j3 ∈ ends (reFuel s) sp.g2 s j2 ∧
      j5 ∈ ends (reFuel s) sp.g3 s j4 ∧
      g = (subStr s j0 j1, subStr s j2 j3, subStr s j4 j5) := by
  unfold nlCandidates at hg
  simp only [List.mem_flatMap, List.mem_map] at hg
  obtain ⟨j0, hj0, j1, hj1, j2, hj2, j3, hj3, j4, hj4, j5, hj5, j6, hj6, hgeq⟩ := hg
  have hl0 : j0 ≤ s.length := (ends_spec _ sp.pre s i j0 hi hj0).2.1
  have hl1 : j1 ≤ s.length := (ends_spec _ sp.g1 s j0 j1 hl0 hj1).2.1
  have hl2 : j2 ≤ s.length := (ends_spec _ sp.mid1 s j1 j2 hl1 hj2).2.1
  have hl3 : j3 ≤ s.length := (ends_spec _ sp.g2 s j2 j3 hl2 hj3).2.1
  have hl4 : j4 ≤ s.length := (ends_spec _ sp.mid2 s j3 j4 hl3 hj4).2.1
  exact ⟨j0, j1, j2, j3, j4, j5, hl0, hl2, hl4, hj1, hj3, hj5, hgeq.symm⟩

/-- Helper: a successful `re.search` of a natural-language pattern comes
from the candidate set of some in-bounds start position. -/
theorem nlSearchF_spec (sp : NLSpec) (s : List Char) (fuel start : Nat)
    (g : String × String × String) (h : nlSearchF sp s fuel start = some g) :
    ∃ i, i ≤ s.length ∧ g ∈ nlCandidates sp s i := by
  induction fuel generalizing start with
  | zero => simp [nlSearchF] at h
  | succ fuel ih =>
      rw [nlSearchF] at h
      by_cases hgt : start > s.length
      · rw [if_pos hgt] at h
        exact Option.noConfusion h
      · rw [if_neg hgt] at h
        cases hh : (nlCandidates sp s start).head? with
        | some g' =>
            rw [hh] at h
            have := Option.some.inj h
            subst this
            exact ⟨start, by omega, List.mem_of_mem_head? hh⟩
        | none =>
            rw [hh] at h
            exact ih (start + 1) h

/-- Helper: the symbols `op_map` can produce. -/
theorem opMap_cases (w sym : String) (h : opMap w = some sym) :
    sym = "+" ∨ sym = "-" ∨ sym = "*" ∨ sym = "/" := by
  unfold opMap at h
  split_ifs at h <;> simp_all

/-- A pattern all of whose character classes lie inside the
arithmetic-extract character set. -/
def CharBounded (r : RE) : Prop :=
  ∀ c, reChars r c = true → c ∈ arithExtractChars

theorem charBounded_eps : CharBounded .eps := by
  intro c h; simp [reChars] at h

theorem charBounded_wordB : CharBounded .wordB := by
  intro c h; simp [reChars] at h

theorem charBounded_seq (a b : RE) (ha : CharBounded a) (hb : CharBounded b) :
    CharBounded (.seq a b) := by
  intro c h
  rcases Bool.or_eq_true _ _ ▸ h with h | h
  · exact ha c h
  · exact hb c h

theorem charBounded_alt (a b : RE) (ha : CharBounded a) (hb : CharBounded b) :
    CharBounded (.alt a b) := by
  intro c h
  rcases Bool.or_eq_true _ _ ▸ h with h | h
  · exact ha c h
  · exact hb c h

theorem charBounded_star (a : RE) (ha : CharBounded a) : CharBounded (.star a) := ha

theorem charBounded_opt (a : RE) (ha : CharBounded a) : CharBounded (.opt a) := ha

theorem charBounded_plus (a : RE) (ha : CharBounded a) : CharBounded (RE.plus a) :=
  charBounded_seq a (.star a) ha (charBounded_star a ha)

theorem charBounded_seqList (rs : List RE) (h : ∀ r ∈ rs, CharBounded r) :
    CharBounded (RE.seqList rs) := by
  induction rs with
  | nil => exact charBounded_eps
  | cons r rest ih =>
      exact charBounded_seq r (RE.seqList rest) (h r (by simp))
        (ih fun r' hr' => h r' (by simp [hr']))

theorem charBounded_digit : CharBounded (.cls pyDigit) := by
  intro c h
  simp only [reChars, pyDigit] at h
  simp at h
  simp [arithExtractChars]
  tauto

theorem charBounded_dot : CharBounded (.cls (· = '.')) := by
  intro c h
  simp only [reChars, decide_eq_true_eq] at h
  subst h
  simp [arithExtractChars]

theorem charBounded_ws : CharBounded (.cls pyWs) := by
  intro c h
  simp only [reChars, pyWs, pyWsChars] at h
  simp at h
  simp [arithExtractChars]
  tauto

theorem charBounded_reWsStar : CharBounded reWsStar :=
  charBounded_star _ charBounded_ws

theorem charBounded_reOp4 : CharBounded reOp4 := by
  intro c h
  simp only [reOp4, reChars] at h
  simp at h
  simp [arithExtractChars]
  tauto

theorem charBounded_reNum : CharBounded reNum :=
  charBounded_seq _ _ (charBounded_plus _ charBounded_digit)
    (charBounded_opt _ (charBounded_seq _ _ charBounded_dot
      (charBounded_plus _ charBounded_digit)))

theorem charBounded_reArith1 : CharBounded reArith1 := by
  unfold reArith1
  refine charBounded_seqList _ ?_
  intro r hr
  simp only [List.mem_cons, List.not_mem_nil, or_false] at hr
  rcases hr with rfl | rfl | rfl | rfl | rfl | rfl
  · exact charBounded_reNum
  · exact charBounded_reWsStar
  · exact charBounded_reOp4
  · exact charBounded_reWsStar
  · exact charBounded_reNum
  · refine charBounded_star _ (charBounded_seqList _ ?_)
    intro r hr
    simp only [List.mem_cons, List.not_mem_nil, or_false] at hr
    rcases hr with rfl | rfl | rfl | rfl
    · exact charBounded_reWsStar
    · exact charBounded_reOp4
    · exact charBounded_reWsStar
    · exact charBounded_reNum

theorem charBounded_starLit : CharBounded (RE.lit ['*', '*']) := by
  refine charBounded_seqList _ ?_
  intro r hr
  simp only [RE.lit, List.map_cons, List.map_nil, List.mem_cons,
    List.not_mem_nil, or_false] at hr
  rcases hr with rfl | rfl <;>
  · intro c h
    simp only [reChars, decide_eq_true_eq] at h
    subst h
    simp [arithExtractChars]

theorem charBounded_reArith2 : CharBounded reArith2 := by
  unfold reArith2
  refine charBounded_seqList _ ?_
  intro r hr
  simp only [List.mem_cons, List.not_mem_nil, or_false] at hr
  rcases hr with rfl | rfl | rfl | rfl | rfl
  · exact charBounded_reNum
  · exact charBounded_reWsStar
  · exact charBounded_starLit
  · exact charBounded_reWsStar
  · exact charBounded_reNum

theorem charBounded_reArith3 : CharBounded reArith3 := by
  unfold reArith3
  refine charBounded_seqList _ ?_
  intro r hr
  simp only [List.mem_cons, List.not_mem_nil, or_false] at hr
  have hpar : ∀ ch : Char, ch ∈ (['(', ')'] : List Char) →
      CharBounded (.cls (· = ch)) := by
    intro ch hch c h
    simp only [reChars, decide_eq_true_eq] at h
    subst h
    simp [List.mem_cons] at hch
    rcases hch with rfl | rfl <;> simp [arithExtractChars]
  rcases hr with rfl | rfl | rfl | rfl | rfl | rfl | rfl | rfl | rfl
  · exact hpar '(' (by simp)
  · exact charBounded_reWsStar
  · exact charBounded_reNum
  · exact charBounded_reWsStar
  · exact charBounded_reOp4
  · exact charBounded_reWsStar
  · exact charBounded_reNum
  · exact charBounded_reWsStar
  · exact hpar ')' (by simp)

/-- Helper: the loop over the direct arithmetic patterns returns a longest
match of the first pattern that matched. -/
theorem arithPatternLoop_spec (s : List Char) (rs : List RE) (m : String)
    (h : arithPatternLoop s rs = some m) : ∃ r ∈ rs, m ∈ findallStrings r s := by
  induction rs with
  | nil => simp [arithPatternLoop] at h
  | cons r rest ih =>
      rw [arithPatternLoop] at h
      cases hf : findallStrings r s with
      | nil =>
          rw [hf] at h
          obtain ⟨r', hr', hm⟩ := ih h
          exact ⟨r', by simp [hr'], hm⟩
      | cons x xs =>
          rw [hf] at h
          have hme : maxByLen x xs = m := Option.some.inj h
          refine ⟨r, by simp, ?_⟩
          rw [hf, ← hme]
          exact maxByLen_mem x xs

/-- Helper: the loop over the natural-language patterns returns a
recombined `num1 ++ op ++ num2` from a successful search with an `op_map`
operator word. -/
theorem nlPatternLoop_spec (s : List Char) (sps : List NLSpec) (m : String)
    (h : nlPatternLoop s sps = some m) :
    ∃ sp ∈ sps, ∃ n1 opw n2 sym, nlSearch sp s 0 = some (n1, opw, n2) ∧
      opMap opw = some sym ∧ m = n1 ++ sym ++ n2 := by
  induction sps with
  | nil => simp [nlPatternLoop] at h
  | cons sp rest ih =>
      rw [nlPatternLoop] at h
      cases hs : nlSearch sp s 0 with
      | none =>
          rw [hs] at h
          obtain ⟨sp', hsp', rest'⟩ := ih h
          exact ⟨sp', by simp [hsp'], rest'⟩
      | some g =>
          rcases g with ⟨n1, opw, n2⟩
          rw [hs] at h
          dsimp only at h
          cases ho : opMap opw with
          | none =>
              rw [ho] at h
              obtain ⟨sp', hsp', rest'⟩ := ih h
              exact ⟨sp', by simp [hsp'], rest'⟩
          | some sym =>
              rw [ho] at h
              exact ⟨sp, by simp, n1, opw, n2, sym, hs, ho, (Option.some.inj h).symm⟩

/-- Helper: whatever `detect_basic_arithmetic` extracts is a non-empty
string over digits, dot, whitespace, `+ - * /` and parentheses — it can
contain no letter and no equality sign. -/
theorem detect_basic_chars (text e : String)
    (h : detect_basic_arithmetic text = some e) :
    e.data ≠ [] ∧ ∀ c ∈ e.data, c ∈ arithExtractChars := by
  unfold detect_basic_arithmetic at h
  dsimp only at h
  cases ha : arithPatternLoop text.data [reArith1, reArith2, reArith3] with
  | some m =>
      rw [ha] at h
      have hm : m = e := Option.some.inj h
      subst hm
      obtain ⟨r, hr, hmem⟩ := arithPatternLoop_spec _ _ _ ha
      simp only [List.mem_cons, List.not_mem_nil, or_false] at hr
      have hmc : mustConsume r = true := by
        rcases hr with rfl | rfl | rfl <;> decide
      have hbnd : CharBounded r := by
        rcases hr with rfl | rfl | rfl
        exacts [charBounded_reArith1, charBounded_reArith2, charBounded_reArith3]
      obtain ⟨hne, hall⟩ := findallStrings_spec r text.data m hmc hmem
      exact ⟨hne, fun c hc => hbnd c (hall c hc)⟩
  | none =>
      rw [ha] at h
      obtain ⟨sp, hsp, n1, opw, n2, sym, hsearch, hop, heq⟩ := nlPatternLoop_spec _ _ _ h
      subst heq
      simp only [List.mem_cons, List.not_mem_nil, or_false] at hsp
      have hsf : nlSearchF sp (pyStripL (pyLower text.data))
          ((pyStripL (pyLower text.data)).length + 1 - 0) 0 = some (n1, opw, n2) := hsearch
      obtain ⟨i, hi, hcand⟩ := nlSearchF_spec sp _ _ 0 _ hsf
      obtain ⟨j0, j1, j2, j3, j4, j5, hl0, hl2, hl4, hg1, hg2, hg3, hgeq⟩ :=
        nlCandidates_spec sp _ i _ hi hcand
      have hn1 : n1 = subStr (pyStripL (pyLower text.data)) j0 j1 :=
        congrArg Prod.fst hgeq
      have hn2 : n2 = subStr (pyStripL (pyLower text.data)) j4 j5 :=
        congrArg (fun x => x.2.2) hgeq
      have hgl1 : sp.g1 = reNum := by rcases hsp with rfl | rfl | rfl <;> rfl
      have hgl3 : sp.g3 = reNum := by rcases hsp with rfl | rfl | rfl <;> rfl
      have hchars1 : ∀ c ∈ n1.data, c ∈ arithExtractChars := by
        rw [hn1]
        intro c hc
        have hsp1 := (ends_spec _ sp.g1 _ j0 j1 hl0 hg1).2.2
        rw [hgl1] at hsp1
        exact charBounded_reNum c (hsp1 c (by simpa [subStr] using hc))
      have hchars2 : ∀ c ∈ n2.data, c ∈ arithExtractChars := by
        rw [hn2]
        intro c hc
        have hsp3 := (ends_spec _ sp.g3 _ j4 j5 hl4 hg3).2.2
        rw [hgl3] at hsp3
        exact charBounded_reNum c (hsp3 c (by simpa [subStr] using hc))
      have hsymcase := opMap_cases opw sym hop
      have hsym : sym.data ≠ [] ∧ ∀ c ∈ sym.data, c ∈ arithExtractChars := by
        rcases hsymcase with rfl | rfl | rfl | rfl <;> exact ⟨by decide, by decide⟩
      constructor
      · intro hnil
        rw [String.data_append, String.data_append] at hnil
        exact hsym.1 (List.append_eq_nil.mp (List.append_eq_nil.mp hnil).1).2
      · intro c hc
        rw [String.data_append, String.data_append] at hc
        rcases List.mem_append.mp hc with hc | hc
        · rcases List.mem_append.mp hc with hc | hc
          · exact hchars1 c hc
          · exact hsym.2 c hc
        · exact hchars2 c hc

/-- Helper: a non-empty substring occurrence puts the substring's head
among the text's characters. -/
theorem containsSub_head (hch : Char) (tl l : List Char)
    (h : containsSub (hch :: tl) l = true) : hch ∈ l := by
  unfold containsSub at h
  rw [List.any_eq_true] at h
  obtain ⟨i, _, hpre⟩ := h
  have hp : (hch :: tl) <+: l.drop i := List.isPrefixOf_iff_prefix.mp hpre
  exact List.mem_of_mem_drop (hp.subset (by simp))

/-- Helper: the arithmetic-extract characters are fixed by `lower()`. -/
theorem arithChars_toLower : ∀ c ∈ arithExtractChars, c.toLower = c := by decide

/-- Helper: every complex indicator starts with a character (a letter or
`=`) that is not an arithmetic-extract character. -/
theorem complexIndicators_heads : complexIndicators.all
    (fun ind => match ind.data with
     | [] => false
     | hch :: _ => !(arithExtractChars.contains hch)) = true := by decide

/-- Helper: a string over the arithmetic-extract characters contains no
complex indicator, case-insensitively. -/
theorem no_indicator_of_chars (e : String)
    (hc : ∀ c ∈ e.data, c ∈ arithExtractChars) :
    (complexIndicators.any fun ind => containsSub ind.data (pyLower e.data)) = false := by
  rw [List.any_eq_false]
  intro ind hind
  have hhead := List.all_eq_true.mp complexIndicators_heads ind hind
  cases hd : ind.data with
  | nil => rw [hd] at hhead; simp at hhead
  | cons hch tl =>
      rw [hd] at hhead
      have hnotmem : hch ∉ arithExtractChars := by simpa using hhead
      intro hsub
      have hmem := containsSub_head hch tl _ hsub
      obtain ⟨c', hc', hlow⟩ := List.mem_map.mp hmem
      have hc'mem := hc c' hc'
      rw [arithChars_toLower c' hc'mem] at hlow
      subst hlow
      exact hnotmem hc'mem

/-- C1 counterexample: the input `x+2=5` matches neither a basic-arithmetic
extraction pattern nor any general math-expression pattern, so the
classifier selects no tool at all — in particular not the Symbolic
(`sympy`) strategy the claim asserts.  Moreover an input such as `2+2 x`,
which matches an arithmetic pattern and contains the symbolic indicator
`x`, classifies as Arithmetic, contradicting the claim's "never the
Arithmetic strategy". -/
theorem c1_counterexample :
    detect_tool_intent "x+2=5" = none ∧
    detect_tool_intent "x+2=5" ≠ some "sympy" ∧
    detect_tool_intent "2+2 x" = some "basic_arithmetic" := by
  refine ⟨rfl, ?_, rfl⟩
  rw [show detect_tool_intent "x+2=5" = none from rfl]
  simp

/-- C1 amended: whenever the basic-arithmetic extractor extracts an
expression from the input, the classifier selects the Arithmetic strategy —
the symbolic-indicator check is applied to the extracted expression, which
by construction consists only of digits, dot, whitespace, operators and
parentheses and therefore never contains an indicator; symbolic indicators
elsewhere in the input do not divert classification.  The input `x+2=5`
matches no extraction pattern and classifies as no tool (free generation),
not as Symbolic. -/
theorem c1_arithmetic_priority :
    (∀ text e, detect_basic_arithmetic text = some e →
        detect_tool_intent text = some "basic_arithmetic") ∧
    detect_tool_intent "x+2=5" = none := by
  constructor
  · intro text e hde
    obtain ⟨hne, hchars⟩ := detect_basic_chars text e hde
    have hnoind := no_indicator_of_chars e hchars
    have hestr : e ≠ "" := by
      intro hcontra
      apply hne
      rw [hcontra]
    have hb : is_basic_arithmetic text = true := by
      unfold is_basic_arithmetic
      rw [hde]
      simp [hestr, hnoind]
    unfold detect_tool_intent
    rw [if_pos hb]
  · rfl

/-- Witness for C1 amended at the input `2+2`. -/
theorem c1_arithmetic_priority_witness :
    detect_tool_intent "2+2" = some "basic_arithmetic" :=
  c1_arithmetic_priority.1 "2+2" "2+2" (by rfl)

end MathSolver
